import Mathlib

/-!
Shallow embedding of the finance-tracker long-term simulation engine
(`finance_tracker/services/simulation_service.py`) together with proofs
about its behaviour.

Modelling conventions:
* Python `Decimal` values are modelled as exact rationals (`ℚ`); the
  engine's stated contract is exact decimal arithmetic.
* The fractional power `x ** dt` (with `dt = 1/periodsPerYear`) used by
  `periodic_rate` and by the inflation index has no rational closed form,
  so the engine is parameterised by a root function `proot : ℚ → ℕ → ℚ`
  standing for `fun x n => x ** (1/n)`.  Theorems about the engine either
  hold for every such function (hence for the actual one) or instantiate
  it at `yearly` granularity, where `x ** (1/1) = x` exactly and
  `fun x _ => x` is the true semantics.
* Python `dict` is modelled by an insertion-ordered association list
  (`AList`): updating an existing key keeps its position, new keys are
  appended, and `.values()` iterates in that order.
* `raise ValueError` is modelled as `Except.error`.
* The `start : date` field of `SimulationConfig` is omitted: the engine
  never reads it.
-/

namespace FinanceTracker

/-- Insertion-ordered association list, the model of a Python `dict`. -/
abbrev AList (κ : Type) (α : Type) : Type := List (κ × α)

namespace AList

def empty {κ α : Type} : AList κ α := []

/-- First binding of `k`, if any. -/
def get? {κ α : Type} [DecidableEq κ] : AList κ α → κ → Option α
| [], _ => none
| (k, v) :: rest, k0 => if k = k0 then some v else get? rest k0

/-- Lookup with a default, the model of `d.get(k, v0)` (and of `d[k]`
whenever the key is known to be present). -/
def getD {κ α : Type} [DecidableEq κ] (d : AList κ α) (k : κ) (v0 : α) : α :=
  (d.get? k).getD v0

/-- `d[k] = v`: replace in place if the key exists, else append. -/
def set {κ α : Type} [DecidableEq κ] : AList κ α → κ → α → AList κ α
| [], k0, v0 => [(k0, v0)]
| (k, v) :: rest, k0, v0 => if k = k0 then (k0, v0) :: rest else (k, v) :: set rest k0 v0

/-- The model of `d.values()`. -/
def values {κ α : Type} (d : AList κ α) : List α := d.map Prod.snd

end AList

/-- Association list keyed by product name, the common case. -/
abbrev Dict (α : Type) : Type := AList String α

inductive Period where
| monthly
| quarterly
| yearly
deriving DecidableEq, Repr

inductive ProductKind where
| cash
| savings
| scpi
| per
| fcpi
| other
deriving DecidableEq, Repr

inductive DividendFrequency where
| monthly
| quarterly
| semiannual
| yearly
deriving DecidableEq, Repr

inductive FCPIExitMode where
| principal
| full_value
deriving DecidableEq, Repr

def steps_per_year : Period → ℕ
| .monthly => 12
| .quarterly => 4
| .yearly => 1

/-- `periodic_rate annual_rate dt_years = (1+annual_rate) ** dt_years - 1`
with `dt_years = 1/n`, the fractional power supplied by `proot`. -/
def periodic_rate (proot : ℚ → ℕ → ℚ) (annual_rate : ℚ) (n : ℕ) : ℚ :=
  proot (1 + annual_rate) n - 1

structure IncomeConfig where
  gross_annual_start : ℚ
  annual_growth : ℚ
  gross_annual_previous : Option ℚ := none
deriving DecidableEq, Repr

structure BudgetConfig where
  annual_living_costs : ℚ
  emergency_fund_target : ℚ
  enforce_emergency_fund_first : Bool := true
deriving DecidableEq, Repr

structure TaxBracket where
  up_to : Option ℚ
  rate : ℚ
deriving DecidableEq, Repr

structure TaxConfig where
  brackets : List TaxBracket
  household_parts : ℚ := 1
  standard_deduction_rate : ℚ := 1/10
  initial_tax_due_annual : ℚ := 0
deriving DecidableEq, Repr

structure PERCapConfig where
  rate_of_income_prev_year : ℚ := 1/10
  annual_min : ℚ := 0
  annual_max : Option ℚ := none
deriving DecidableEq, Repr

structure FCPIConfig where
  tax_reduction_rate : ℚ := 18/100
  annual_eligible_cap : ℚ := 12000
  holding_years : ℤ := 8
  exit_mode : FCPIExitMode := .principal
deriving DecidableEq, Repr

structure SCPIConfig where
  part_price : ℚ
  parts_per_year : ℤ
  distribution_annual : ℚ
  dividends_to_cash : Bool := true
  revaluation_annual : ℚ := 0
  dividend_frequency : DividendFrequency := .quarterly
deriving DecidableEq, Repr

structure ProductSimConfig where
  name : String
  kind : ProductKind
  annual_return : ℚ := 0
  contribution_per_period : ℚ := 0
  contribution_pct_income : ℚ := 0
  initial_value_eur : ℚ := 0
  initial_invested_eur : Option ℚ := none
  scpi : Option SCPIConfig := none
  initial_scpi_parts : Option ℤ := none
  fcpi : Option FCPIConfig := none
  priority : ℤ := 50
deriving DecidableEq, Repr

structure SimulationConfig where
  years : ℕ
  period : Period
  inflation_annual : ℚ
  income : IncomeConfig
  budget : BudgetConfig
  tax : TaxConfig
  per_cap : PERCapConfig
deriving DecidableEq, Repr

structure SimulationRow where
  period_index : ℕ
  year_index : ℕ
  year_number : ℕ
  step_in_year : ℕ
  income_annual : ℚ
  income_period : ℚ
  living_costs_period : ℚ
  tax_paid_period : ℚ
  tax_paid_year_to_date : ℚ
  tax_due_for_year : Option ℚ
  fcpi_tax_reduction_for_year : Option ℚ
  per_cap_for_year : ℚ
  per_contrib_year_to_date : ℚ
  cash_before_invest : ℚ
  cash_after_invest : ℚ
  contributions_by_product : Dict ℚ
  dividends_by_product : Dict ℚ
  scpi_parts_by_product : Dict ℤ
  redemptions_by_product : Dict ℚ
  value_by_product : Dict ℚ
  invested_by_product : Dict ℚ
  total_value : ℚ
  total_invested : ℚ
  total_gains : ℚ
  inflation_index : ℚ
  total_value_real : ℚ
deriving DecidableEq, Repr, Inhabited

structure SimulationResult where
  rows : List SimulationRow
  product_names : List String
  cash_product : String
  tax_due_next_year : ℚ
deriving DecidableEq, Repr

/-- The band-accumulation loop of `compute_progressive_tax`: `tpp` is the
per-part taxable amount, `prev` the lower bound of the current band. -/
def tax_bands (tpp : ℚ) : ℚ → List TaxBracket → ℚ
| _, [] => 0
| prev, b :: rest =>
  match b.up_to with
  | none => (tpp - prev) * b.rate
  | some upper =>
    (if 0 < min tpp upper - prev then (min tpp upper - prev) * b.rate else 0)
    + (if tpp ≤ upper then 0 else tax_bands tpp upper rest)

def compute_progressive_tax (taxable : ℚ) (tax_cfg : TaxConfig) : ℚ :=
  if taxable ≤ 0 then 0
  else
    let parts := max tax_cfg.household_parts 1
    let taxable_per_part := taxable / parts
    max (tax_bands taxable_per_part 0 tax_cfg.brackets) 0 * parts

def compute_per_cap_from_income_prev (income_prev : ℚ) (per_cap : PERCapConfig) : ℚ :=
  let cap0 := income_prev * per_cap.rate_of_income_prev_year
  let cap1 := max cap0 per_cap.annual_min
  let cap2 := match per_cap.annual_max with
  | none => cap1
  | some m => min cap1 m
  max cap2 0

def distribute_integer_over_periods (total : ℤ) (n : ℤ) : List ℤ :=
  if n ≤ 0 then []
  else if total ≤ 0 then List.replicate n.toNat 0
  else
    let base := Int.fdiv total n
    let rem := Int.fmod total n
    (List.range n.toNat).map (fun i : ℕ => base + if (i : ℤ) < rem then 1 else 0)

def payments_per_year : DividendFrequency → ℕ
| .monthly => 12
| .quarterly => 4
| .semiannual => 2
| .yearly => 1

def should_pay_dividend (period : Period) (step_in_year : ℕ) (freq : DividendFrequency) : Bool :=
  match period with
  | .yearly => true
  | .quarterly =>
    match freq with
    | .monthly => true
    | .quarterly => true
    | .semiannual => step_in_year == 1 || step_in_year == 3
    | .yearly => step_in_year == 3
  | .monthly =>
    match freq with
    | .monthly => true
    | .quarterly => step_in_year == 2 || step_in_year == 5 || step_in_year == 8 || step_in_year == 11
    | .semiannual => step_in_year == 5 || step_in_year == 11
    | .yearly => step_in_year == 11

/-- Number of dividend payments already made earlier this year
(`sum(1 for s in range(step_in_year) if should_pay_dividend(...))`). -/
def payments_done (period : Period) (freq : DividendFrequency) (step_in_year : ℕ) : ℕ :=
  ((List.range step_in_year).filter (fun s => should_pay_dividend period s freq)).length

/-- The per-period SCPI share purchase plan of `SimulationService.run`
(lines 447-459): base share count plus one while the year's earlier
payment count is below the remainder, zero off payment periods. -/
def scpi_parts_planned (period : Period) (freq : DividendFrequency) (parts_per_year : ℤ)
    (step_in_year : ℕ) : ℤ :=
  if should_pay_dividend period step_in_year freq then
    let n_payments : ℤ := (payments_per_year freq : ℤ)
    let base := Int.fdiv parts_per_year n_payments
    let rem := Int.fmod parts_per_year n_payments
    if (payments_done period freq step_in_year : ℤ) < rem then base + 1 else base
  else 0

/-- Mutable per-run state of `SimulationService.run`, carried across steps. -/
structure SimState where
  value : Dict ℚ
  invested : Dict ℚ
  scpi_parts : Dict ℤ
  scpi_part_price : Dict ℚ
  fcpi_lots : Dict (List (ℤ × ℚ))
  infl_idx : ℚ
  tax_due_by_year : AList ℕ ℚ
  tax_paid_ytd : ℚ
  tax_to_pay_this_year_annual : ℚ
  per_contrib_ytd : ℚ
  fcpi_contrib_ytd_by_product : Dict ℚ
  income_annual_by_year : AList ℕ ℚ
  rows : List SimulationRow
deriving DecidableEq, Repr

/-- Initialisation of one product's ledgers (lines 326-343 of the source). -/
def init_product (s : SimState) (p : ProductSimConfig) : SimState :=
  let inv0 := p.initial_invested_eur.getD p.initial_value_eur
  let s1 :=
    match p.kind, p.scpi with
    | .scpi, some sc =>
      let parts0 : ℤ :=
        match p.initial_scpi_parts with
        | some q => q
        | none => if 0 < sc.part_price then ⌊p.initial_value_eur / sc.part_price⌋ else 0
      let parts1 := max 0 parts0
      { s with
        scpi_part_price := s.scpi_part_price.set p.name sc.part_price
        scpi_parts := s.scpi_parts.set p.name parts1
        value := s.value.set p.name ((parts1 : ℚ) * sc.part_price)
        invested := s.invested.set p.name inv0 }
    | _, _ =>
      { s with
        value := s.value.set p.name p.initial_value_eur
        invested := s.invested.set p.name inv0 }
  if p.kind = .fcpi then { s1 with fcpi_lots := s1.fcpi_lots.set p.name [] } else s1

def init_state (cfg : SimulationConfig) (products : List ProductSimConfig) : SimState :=
  let s0 : SimState :=
    { value := AList.empty
      invested := AList.empty
      scpi_parts := AList.empty
      scpi_part_price := AList.empty
      fcpi_lots := AList.empty
      infl_idx := 1
      tax_due_by_year := AList.empty
      tax_paid_ytd := 0
      tax_to_pay_this_year_annual := cfg.tax.initial_tax_due_annual
      per_contrib_ytd := 0
      fcpi_contrib_ytd_by_product :=
        (products.filter (fun p => p.kind == ProductKind.fcpi)).foldl
          (fun d p => d.set p.name 0) AList.empty
      income_annual_by_year := AList.empty
      rows := [] }
  products.foldl init_product s0

/-- Accumulator of the FCPI maturity phase (lines 391-418). -/
structure MatAcc where
  value : Dict ℚ
  invested : Dict ℚ
  fcpi_lots : Dict (List (ℤ × ℚ))
  redemptions : Dict ℚ
deriving DecidableEq, Repr

/-- Inner lot loop of the maturity phase: walk the lot list of product
`pname`, redeeming due lots into cash and keeping the rest (in order). -/
def mature_lots (cash_name pname : String) (mode : FCPIExitMode) (i : ℕ)
    (acc : MatAcc) (kept : List (ℤ × ℚ)) : List (ℤ × ℚ) → MatAcc × List (ℤ × ℚ)
| [] => (acc, kept)
| (maturity_step, principal) :: rest =>
  if maturity_step ≤ (i : ℤ) then
    let vP := acc.value.getD pname 0
    let redeemed :=
      match mode with
      | .full_value => vP
      | .principal => min principal vP
    if 0 < redeemed then
      let value1 := acc.value.set pname (vP - redeemed)
      let value2 := value1.set cash_name (value1.getD cash_name 0 + redeemed)
      let acc1 : MatAcc :=
        { value := value2
          invested := acc.invested.set pname (max 0 (acc.invested.getD pname 0 - redeemed))
          fcpi_lots := acc.fcpi_lots
          redemptions := acc.redemptions.set pname (acc.redemptions.getD pname 0 + redeemed) }
      mature_lots cash_name pname mode i acc1 kept rest
    else
      mature_lots cash_name pname mode i acc kept rest
  else
    mature_lots cash_name pname mode i acc (kept ++ [(maturity_step, principal)]) rest

/-- Maturity phase for one product (skips non-FCPI products and products
with no open lots), writing back the surviving lot list. -/
def mature_product (cash_name : String) (i : ℕ) (acc : MatAcc) (p : ProductSimConfig) : MatAcc :=
  match p.kind, p.fcpi with
  | .fcpi, some fc =>
    let lots := acc.fcpi_lots.getD p.name []
    if lots.isEmpty then acc
    else
      let res := mature_lots cash_name p.name fc.exit_mode i acc [] lots
      { res.1 with fcpi_lots := res.1.fcpi_lots.set p.name res.2 }
  | _, _ => acc

/-- Investable budget (lines 423-426): `max(0, cash - target)`, forced to
zero when enforcement is on and cash is below the emergency-fund target. -/
def compute_invest_budget (enforce : Bool) (cash target : ℚ) : ℚ :=
  let ib := max 0 (cash - target)
  if enforce = true ∧ cash < target then 0 else ib

/-- Stable insertion (earlier list elements keep precedence among equal
priorities), the model of Python's stable `sorted(..., key=priority)`. -/
def insert_by_priority (p : ProductSimConfig) : List ProductSimConfig → List ProductSimConfig
| [] => [p]
| q :: rest => if q.priority < p.priority then q :: insert_by_priority p rest else p :: q :: rest

def sort_by_priority (l : List ProductSimConfig) : List ProductSimConfig :=
  l.foldr insert_by_priority []

/-- Accumulator of the allocation pass (lines 463-527). -/
structure AllocAcc where
  value : Dict ℚ
  invested : Dict ℚ
  scpi_parts : Dict ℤ
  remaining : ℚ
  contributions : Dict ℚ
  per_contrib_ytd : ℚ
  fcpi_contrib_ytd_by_product : Dict ℚ
  fcpi_lots : Dict (List (ℤ × ℚ))
deriving DecidableEq, Repr

/-- One iteration of the allocation pass.  The `remaining ≤ 0` early exit
models the loop's `break`: once the budget is exhausted every later
iteration leaves the accumulator unchanged. -/
def alloc_product (cash_name : String) (n_per_year : ℕ) (year_idx : ℕ)
    (scpi_part_price : Dict ℚ) (desired : Dict ℚ) (scpi_plan : Dict ℤ)
    (acc : AllocAcc) (p : ProductSimConfig) : AllocAcc :=
  if acc.remaining ≤ 0 then acc
  else
    match p.kind, p.scpi with
    | .scpi, some _ =>
      let planned_parts := scpi_plan.getD p.name 0
      if planned_parts ≤ 0 then acc
      else
        let price := scpi_part_price.getD p.name 0
        let max_by_remaining_parts : ℤ := if 0 < price then ⌊acc.remaining / price⌋ else 0
        let max_by_cash_parts : ℤ := if 0 < price then ⌊acc.value.getD cash_name 0 / price⌋ else 0
        let parts_to_buy := min planned_parts (min max_by_remaining_parts max_by_cash_parts)
        if parts_to_buy ≤ 0 then acc
        else
          let spent := (parts_to_buy : ℚ) * price
          let value1 := acc.value.set cash_name (acc.value.getD cash_name 0 - spent)
          let new_parts := acc.scpi_parts.getD p.name 0 + parts_to_buy
          let value2 := value1.set p.name ((new_parts : ℚ) * price)
          { acc with
            value := value2
            scpi_parts := acc.scpi_parts.set p.name new_parts
            remaining := acc.remaining - spent
            invested := acc.invested.set p.name (acc.invested.getD p.name 0 + spent)
            contributions := acc.contributions.set p.name (acc.contributions.getD p.name 0 + spent) }
    | _, _ =>
      let want := desired.getD p.name 0
      if want ≤ 0 then acc
      else
        let cash := acc.value.getD cash_name 0
        let alloc0 := min want acc.remaining
        let alloc := if cash < alloc0 then max 0 cash else alloc0
        if alloc ≤ 0 then acc
        else
          let value1 := acc.value.set cash_name (cash - alloc)
          let value2 := value1.set p.name (value1.getD p.name 0 + alloc)
          let per1 := if p.kind = .per then acc.per_contrib_ytd + alloc else acc.per_contrib_ytd
          let fcpi_ytd1 :=
            if p.kind = .fcpi then
              acc.fcpi_contrib_ytd_by_product.set p.name
                (acc.fcpi_contrib_ytd_by_product.getD p.name 0 + alloc)
            else acc.fcpi_contrib_ytd_by_product
          let lots1 :=
            if p.kind = .fcpi then
              let holding : ℤ := match p.fcpi with | some f => f.holding_years | none => 8
              let maturity_year_idx : ℤ := (year_idx : ℤ) + holding
              let maturity_step : ℤ := (maturity_year_idx + 1) * (n_per_year : ℤ) - 1
              acc.fcpi_lots.set p.name (acc.fcpi_lots.getD p.name [] ++ [(maturity_step, alloc)])
            else acc.fcpi_lots
          { acc with
            value := value2
            remaining := acc.remaining - alloc
            invested := acc.invested.set p.name (acc.invested.getD p.name 0 + alloc)
            contributions := acc.contributions.set p.name (acc.contributions.getD p.name 0 + alloc)
            per_contrib_ytd := per1
            fcpi_contrib_ytd_by_product := fcpi_ytd1
            fcpi_lots := lots1 }

/-- Accumulator of the return/dividend accrual phase (lines 531-557). -/
structure AccrueAcc where
  value : Dict ℚ
  scpi_part_price : Dict ℚ
  dividends : Dict ℚ
deriving DecidableEq, Repr

def accrue_product (proot : ℚ → ℕ → ℚ) (period : Period) (n_per_year : ℕ)
    (cash_name : String) (step_in_year : ℕ) (scpi_parts : Dict ℤ)
    (acc : AccrueAcc) (p : ProductSimConfig) : AccrueAcc :=
  match p.kind, p.scpi with
  | .scpi, some sc =>
    let r_revalo := periodic_rate proot sc.revaluation_annual n_per_year
    let price := acc.scpi_part_price.getD p.name 0 * (1 + r_revalo)
    let prices := acc.scpi_part_price.set p.name price
    let value1 := acc.value.set p.name ((scpi_parts.getD p.name 0 : ℚ) * price)
    if should_pay_dividend period step_in_year sc.dividend_frequency then
      let div :=
        if period = .yearly then value1.getD p.name 0 * sc.distribution_annual
        else value1.getD p.name 0 * (sc.distribution_annual / (payments_per_year sc.dividend_frequency : ℚ))
      if 0 < div then
        let divs := acc.dividends.set p.name (acc.dividends.getD p.name 0 + div)
        let value2 :=
          if sc.dividends_to_cash then value1.set cash_name (value1.getD cash_name 0 + div)
          else value1.set p.name (value1.getD p.name 0 + div)
        { value := value2, scpi_part_price := prices, dividends := divs }
      else { value := value1, scpi_part_price := prices, dividends := acc.dividends }
    else { value := value1, scpi_part_price := prices, dividends := acc.dividends }
  | _, _ =>
    let r_p := periodic_rate proot p.annual_return n_per_year
    { acc with value := acc.value.set p.name (acc.value.getD p.name 0 * (1 + r_p)) }

/-- `{p.name: D(0) for p in products}`. -/
def zero_dict (products : List ProductSimConfig) : Dict ℚ :=
  products.foldl (fun d p => d.set p.name 0) AList.empty

/-- Maturity phase over the whole product list. -/
def mature_pass (cash_name : String) (i : ℕ) (products : List ProductSimConfig)
    (m : MatAcc) : MatAcc :=
  products.foldl (mature_product cash_name i) m

/-- Desired contributions of non-SCPI, non-cash products (lines 429-438). -/
def desired_dict (cash_name : String) (income_period : ℚ)
    (products : List ProductSimConfig) : Dict ℚ :=
  products.foldl
    (fun d p =>
      if p.name = cash_name then d
      else if p.kind = .scpi ∧ p.scpi.isSome then d
      else d.set p.name (max 0 (p.contribution_per_period + p.contribution_pct_income * income_period)))
    AList.empty

/-- SCPI purchase plan of the period (lines 441-461). -/
def scpi_plan_dict (period : Period) (step_in_year : ℕ)
    (products : List ProductSimConfig) : Dict ℤ :=
  products.foldl
    (fun d p =>
      match p.kind, p.scpi with
      | .scpi, some sc =>
        d.set p.name (scpi_parts_planned period sc.dividend_frequency sc.parts_per_year step_in_year)
      | _, _ => d)
    AList.empty

/-- The iteration order of the allocation pass: non-cash products, stably
sorted by ascending priority. -/
def alloc_order (cash_name : String) (products : List ProductSimConfig) :
    List ProductSimConfig :=
  sort_by_priority (products.filter (fun p => !(p.name == cash_name)))

/-- The allocation pass (lines 466-527). -/
def alloc_pass (cash_name : String) (n_per_year : ℕ) (year_idx : ℕ)
    (scpi_part_price : Dict ℚ) (desired : Dict ℚ) (scpi_plan : Dict ℤ)
    (products : List ProductSimConfig) (acc : AllocAcc) : AllocAcc :=
  (alloc_order cash_name products).foldl
    (alloc_product cash_name n_per_year year_idx scpi_part_price desired scpi_plan) acc

/-- The accrual phase over the whole product list. -/
def accrue_pass (proot : ℚ → ℕ → ℚ) (period : Period) (n_per_year : ℕ)
    (cash_name : String) (step_in_year : ℕ) (scpi_parts : Dict ℤ)
    (products : List ProductSimConfig) (a : AccrueAcc) : AccrueAcc :=
  products.foldl (accrue_product proot period n_per_year cash_name step_in_year scpi_parts) a

/-- Aggregate FCPI tax reduction at year end (lines 603-610). -/
def fcpi_reduction (products : List ProductSimConfig) (fcpi_ytd : Dict ℚ) : ℚ :=
  products.foldl
    (fun t p =>
      match p.kind, p.fcpi with
      | .fcpi, some fc =>
        t + (min (fcpi_ytd.getD p.name 0) fc.annual_eligible_cap) * fc.tax_reduction_rate
      | _, _ => t)
    0

/-- One period step of `SimulationService.run` (lines 360-655): the strict
sequence year-boundary bookkeeping, inflation, income and fixed cash flow,
lot maturities, investable budget, demand, SCPI planning, allocation,
accrual, totals, retirement cap, year-end tax settlement, row emission. -/
def sim_step (proot : ℚ → ℕ → ℚ) (cfg : SimulationConfig)
    (products : List ProductSimConfig) (cash_name : String) (n_per_year : ℕ)
    (s : SimState) (i : ℕ) : SimState :=
  let dt : ℚ := 1 / (n_per_year : ℚ)
  let year_idx := i / n_per_year
  let step_in_year := i % n_per_year
  let year_number := year_idx + 1
  -- year boundary: arm the tax due this year, reset the tax-paid counter
  let tax_to_pay :=
    if step_in_year = 0 then
      if year_idx = 0 then cfg.tax.initial_tax_due_annual
      else s.tax_due_by_year.getD (year_idx - 1) 0
    else s.tax_to_pay_this_year_annual
  let tax_paid_ytd0 := if step_in_year = 0 then 0 else s.tax_paid_ytd
  -- inflation
  let infl_idx := s.infl_idx * proot (1 + cfg.inflation_annual) n_per_year
  -- income
  let income_annual := cfg.income.gross_annual_start * (1 + cfg.income.annual_growth) ^ year_idx
  let income_by_year := s.income_annual_by_year.set year_idx income_annual
  let income_period := income_annual * dt
  -- cash flow: income in, living costs and armed tax out
  let value1 := s.value.set cash_name (s.value.getD cash_name 0 + income_period)
  let living_costs_period := cfg.budget.annual_living_costs * dt
  let value2 := value1.set cash_name (value1.getD cash_name 0 - living_costs_period)
  let tax_paid_period := tax_to_pay * dt
  let value3 := value2.set cash_name (value2.getD cash_name 0 - tax_paid_period)
  let tax_paid_ytd1 := tax_paid_ytd0 + tax_paid_period
  -- FCPI maturities credit cash before this period's investment
  let mat : MatAcc :=
    mature_pass cash_name i products
      { value := value3, invested := s.invested, fcpi_lots := s.fcpi_lots,
        redemptions := zero_dict products }
  let cash_before := mat.value.getD cash_name 0
  -- investable budget
  let invest_budget :=
    compute_invest_budget cfg.budget.enforce_emergency_fund_first
      (mat.value.getD cash_name 0) cfg.budget.emergency_fund_target
  -- demand and SCPI purchase plan for this period
  let desired : Dict ℚ := desired_dict cash_name income_period products
  let scpi_plan : Dict ℤ := scpi_plan_dict cfg.period step_in_year products
  -- allocation pass in ascending priority order
  let alloc : AllocAcc :=
    alloc_pass cash_name n_per_year year_idx s.scpi_part_price desired scpi_plan products
      { value := mat.value, invested := mat.invested, scpi_parts := s.scpi_parts,
        remaining := invest_budget, contributions := zero_dict products,
        per_contrib_ytd := s.per_contrib_ytd,
        fcpi_contrib_ytd_by_product := s.fcpi_contrib_ytd_by_product,
        fcpi_lots := mat.fcpi_lots }
  let cash_after := alloc.value.getD cash_name 0
  -- returns and dividends
  let accrued : AccrueAcc :=
    accrue_pass proot cfg.period n_per_year cash_name step_in_year alloc.scpi_parts products
      { value := alloc.value, scpi_part_price := s.scpi_part_price, dividends := zero_dict products }
  -- totals
  let total_value := accrued.value.values.sum
  let total_value_real := if 0 < infl_idx then total_value / infl_idx else total_value
  let total_invested :=
    ((products.filter (fun p => !(p.kind == ProductKind.cash))).map
      (fun p => alloc.invested.getD p.name 0)).sum
  let total_gains :=
    ((products.filter (fun p => !(p.kind == ProductKind.cash))).map
      (fun p =>
        (if 0 < infl_idx then accrued.value.getD p.name 0 / infl_idx
         else accrued.value.getD p.name 0) - alloc.invested.getD p.name 0)).sum
  -- retirement cap from prior-year income
  let income_prev :=
    if year_idx = 0 then cfg.income.gross_annual_previous.getD income_annual
    else income_by_year.getD (year_idx - 1) 0
  let per_cap_for_year := compute_per_cap_from_income_prev income_prev cfg.per_cap
  -- year-end tax settlement
  let is_year_end := step_in_year = n_per_year - 1
  let taxable_base := max 0 (income_annual * (1 - cfg.tax.standard_deduction_rate))
  let per_deduction := min alloc.per_contrib_ytd per_cap_for_year
  let taxable_after_per := max 0 (taxable_base - per_deduction)
  let tax_due_before_fcpi := compute_progressive_tax taxable_after_per cfg.tax
  let fcpi_reduction_total := fcpi_reduction products alloc.fcpi_contrib_ytd_by_product
  let tax_due := max 0 (tax_due_before_fcpi - fcpi_reduction_total)
  let tax_due_for_year : Option ℚ := if is_year_end then some tax_due else none
  let fcpi_tax_reduction_for_year : Option ℚ :=
    if is_year_end then some (min fcpi_reduction_total tax_due_before_fcpi) else none
  let tax_due_by_year1 :=
    if is_year_end then s.tax_due_by_year.set year_idx tax_due else s.tax_due_by_year
  let per_contrib_ytd1 := if is_year_end then 0 else alloc.per_contrib_ytd
  let fcpi_ytd1 :=
    if is_year_end then alloc.fcpi_contrib_ytd_by_product.map (fun kv => (kv.1, (0 : ℚ)))
    else alloc.fcpi_contrib_ytd_by_product
  let row : SimulationRow :=
    { period_index := i
      year_index := year_idx
      year_number := year_number
      step_in_year := step_in_year
      income_annual := income_annual
      income_period := income_period
      living_costs_period := living_costs_period
      tax_paid_period := tax_paid_period
      tax_paid_year_to_date := tax_paid_ytd1
      tax_due_for_year := tax_due_for_year
      fcpi_tax_reduction_for_year := fcpi_tax_reduction_for_year
      per_cap_for_year := per_cap_for_year
      per_contrib_year_to_date := per_contrib_ytd1
      cash_before_invest := cash_before
      cash_after_invest := cash_after
      contributions_by_product := alloc.contributions
      dividends_by_product := accrued.dividends
      scpi_parts_by_product :=
        (products.map (fun p => p.name)).foldl
          (fun d k => d.set k (alloc.scpi_parts.getD k 0)) AList.empty
      redemptions_by_product := mat.redemptions
      value_by_product := accrued.value
      invested_by_product := alloc.invested
      total_value := total_value
      total_invested := total_invested
      total_gains := total_gains
      inflation_index := infl_idx
      total_value_real := total_value_real }
  { value := accrued.value
    invested := alloc.invested
    scpi_parts := alloc.scpi_parts
    scpi_part_price := accrued.scpi_part_price
    fcpi_lots := alloc.fcpi_lots
    infl_idx := infl_idx
    tax_due_by_year := tax_due_by_year1
    tax_paid_ytd := tax_paid_ytd1
    tax_to_pay_this_year_annual := tax_to_pay
    per_contrib_ytd := per_contrib_ytd1
    fcpi_contrib_ytd_by_product := fcpi_ytd1
    income_annual_by_year := income_by_year
    rows := s.rows ++ [row] }

/-- `SimulationService.run`: validate the single-cash-product invariant,
then fold the step engine over `years * periodsPerYear` periods. -/
def run (proot : ℚ → ℕ → ℚ) (cfg : SimulationConfig)
    (products : List ProductSimConfig) : Except String SimulationResult :=
  let n_per_year := steps_per_year cfg.period
  let n_steps := cfg.years * n_per_year
  match (products.filter (fun p => p.kind == ProductKind.cash)).map (fun p => p.name) with
  | [] => .error "Simulation: il faut au moins un produit de type cash."
  | cash_name :: _ :: _ =>
    .error ("Simulation: plusieurs produits cash detectes: " ++ cash_name ++ ". Garde-en un seul.")
  | [cash_name] =>
    let final :=
      (List.range n_steps).foldl (sim_step proot cfg products cash_name n_per_year)
        (init_state cfg products)
    .ok
      { rows := final.rows
        product_names := products.map (fun p => p.name)
        cash_product := cash_name
        tax_due_next_year := final.tax_due_by_year.getD (cfg.years - 1) 0 }

/-- The rows of a run, empty when the run failed. -/
def rowsOf (x : Except String SimulationResult) : List SimulationRow :=
  match x with
  | .ok r => r.rows
  | .error _ => []

/-! ### Association-list lemmas -/

theorem AList.get?_set_self {κ α : Type} [DecidableEq κ] (d : AList κ α) (k : κ) (v : α) :
    (d.set k v).get? k = some v := by
  induction d with
  | nil => simp [AList.set, AList.get?]
  | cons hd tl ih =>
    obtain ⟨k1, v1⟩ := hd
    by_cases h : k1 = k
    · simp [AList.set, AList.get?, h]
    · simp [AList.set, AList.get?, h, ih]

theorem AList.get?_set_ne {κ α : Type} [DecidableEq κ] (d : AList κ α) {k k0 : κ} (v : α)
    (h : k ≠ k0) : (d.set k v).get? k0 = d.get? k0 := by
  induction d with
  | nil => simp [AList.set, AList.get?, h]
  | cons hd tl ih =>
    obtain ⟨k1, v1⟩ := hd
    by_cases h1 : k1 = k
    · simp [AList.set, AList.get?, h1, h]
    · by_cases h0 : k1 = k0
      · subst h0
        simp [AList.set, AList.get?, h1]
      · simp [AList.set, AList.get?, h1, h0, ih]

theorem AList.getD_set_self {κ α : Type} [DecidableEq κ] (d : AList κ α) (k : κ) (v v0 : α) :
    (d.set k v).getD k v0 = v := by
  simp [AList.getD, AList.get?_set_self]

theorem AList.getD_set_ne {κ α : Type} [DecidableEq κ] (d : AList κ α) {k k0 : κ} (v : α)
    (v0 : α) (h : k ≠ k0) : (d.set k v).getD k0 v0 = d.getD k0 v0 := by
  simp [AList.getD, AList.get?_set_ne _ _ h]

/-! ### Generic fold invariant -/

theorem foldl_invariant {α β : Type} (f : α → β → α) (I : α → Prop)
    (h : ∀ a b, I a → I (f a b)) : ∀ (l : List β) (a : α), I a → I (List.foldl f a l) := by
  intro l
  induction l with
  | nil => intro a ha; simpa using ha
  | cons b t ih => intro a ha; simpa using ih (f a b) (h a b ha)

/-! ### Allocation-order membership -/

theorem mem_insert_by_priority {p q : ProductSimConfig} {l : List ProductSimConfig}
    (h : q ∈ insert_by_priority p l) : q = p ∨ q ∈ l := by
  induction l with
  | nil => simpa [insert_by_priority] using h
  | cons x t ih =>
    by_cases hx : x.priority < p.priority
    · simp only [insert_by_priority, if_pos hx, List.mem_cons] at h
      rcases h with h | h
      · exact Or.inr (by simp [h])
      · rcases ih h with h | h
        · exact Or.inl h
        · exact Or.inr (by simp [h])
    · simp only [insert_by_priority, if_neg hx, List.mem_cons] at h
      rcases h with h | h
      · exact Or.inl h
      · exact Or.inr (List.mem_cons.mpr h)

theorem mem_sort_by_priority {q : ProductSimConfig} {l : List ProductSimConfig}
    (h : q ∈ sort_by_priority l) : q ∈ l := by
  induction l with
  | nil => simp [sort_by_priority] at h
  | cons x t ih =>
    simp only [sort_by_priority, List.foldr_cons] at h
    rcases mem_insert_by_priority h with h | h
    · simp [h]
    · exact List.mem_cons_of_mem _ (ih h)

theorem mem_alloc_order {cash_name : String} {products q : _} (h : q ∈ alloc_order cash_name products) :
    q ∈ products ∧ q.name ≠ cash_name := by
  have h1 := mem_sort_by_priority h
  have h2 := List.mem_filter.mp h1
  refine ⟨h2.1, ?_⟩
  have := h2.2
  simp only [Bool.not_eq_eq_eq_not, Bool.not_false, beq_iff_eq] at this
  intro hc
  simp [hc] at this

theorem exists_ok_of_isOk {ε α : Type} {x : Except ε α} (h : x.isOk = true) :
    ∃ r, x = .ok r := by
  cases x with
  | ok r => exact ⟨r, rfl⟩
  | error e => simp [Except.isOk, Except.toBool] at h

/-! ### C1: single-cash-product enforcement -/

/-- C1.  `SimulationService.run` fails (with a configuration error, before
any period is simulated) exactly when the product list does not contain
exactly one `cash`-kind product, and with exactly one `cash`-kind product
it returns a `SimulationResult`. -/
theorem run_single_cash_enforcement (proot : ℚ → ℕ → ℚ) (cfg : SimulationConfig)
    (products : List ProductSimConfig) :
    ((∃ e, run proot cfg products = .error e) ↔
      (products.filter (fun p => p.kind == ProductKind.cash)).length ≠ 1)
    ∧ ((products.filter (fun p => p.kind == ProductKind.cash)).length = 1 →
      ∃ res, run proot cfg products = .ok res) := by
  rcases h : products.filter (fun p => p.kind == ProductKind.cash) with _ | ⟨a, _ | ⟨b, t⟩⟩
  · constructor
    · simp [run, h]
    · simp [h]
  · constructor
    · simp [run, h]
    · intro _
      exact exists_ok_of_isOk (by simp [run, h, Except.isOk, Except.toBool])
  · constructor
    · simp [run, h]
    · simp [h]

/-! ### C9: the emergency-fund enforcement flag is unobservable -/

/-- The configuration with the enforcement flag replaced. -/
def set_enforce (cfg : SimulationConfig) (b : Bool) : SimulationConfig :=
  { cfg with budget := { cfg.budget with enforce_emergency_fund_first := b } }

/-- The enforcement conditional is redundant: when cash is below the
target, `max(0, cash - target)` is already zero. -/
theorem compute_invest_budget_enforce (e : Bool) (cash target : ℚ) :
    compute_invest_budget e cash target = max 0 (cash - target) := by
  unfold compute_invest_budget
  by_cases h : e = true ∧ cash < target
  · rw [if_pos h]
    exact (max_eq_left (sub_nonpos.mpr (le_of_lt h.2))).symm
  · rw [if_neg h]

theorem sim_step_set_enforce (proot : ℚ → ℕ → ℚ) (cfg : SimulationConfig) (b : Bool)
    (products : List ProductSimConfig) (cash_name : String) (n_per_year : ℕ)
    (s : SimState) (i : ℕ) :
    sim_step proot (set_enforce cfg b) products cash_name n_per_year s i
      = sim_step proot cfg products cash_name n_per_year s i := by
  simp only [sim_step, set_enforce, compute_invest_budget_enforce]

theorem run_set_enforce (proot : ℚ → ℕ → ℚ) (cfg : SimulationConfig) (b : Bool)
    (products : List ProductSimConfig) :
    run proot (set_enforce cfg b) products = run proot cfg products := by
  have hs : sim_step proot (set_enforce cfg b) products = sim_step proot cfg products := by
    funext cash_name n_per_year s i
    exact sim_step_set_enforce proot cfg b products cash_name n_per_year s i
  have hi : init_state (set_enforce cfg b) products = init_state cfg products := rfl
  have hp : (set_enforce cfg b).period = cfg.period := rfl
  have hy : (set_enforce cfg b).years = cfg.years := rfl
  simp only [run, hs, hi, hp, hy]

/-- C9.  The `enforce_emergency_fund_first` flag has no observable effect:
`SimulationService.run` returns an identical `SimulationResult` for any two
values of the flag, because the investable budget `max(0, cash - target)`
is already zero whenever cash is below the emergency-fund target. -/
theorem run_enforce_flag_unobservable (proot : ℚ → ℕ → ℚ) (cfg : SimulationConfig)
    (products : List ProductSimConfig) (b1 b2 : Bool) :
    run proot (set_enforce cfg b1) products = run proot (set_enforce cfg b2) products :=
  (run_set_enforce proot cfg b1 products).trans (run_set_enforce proot cfg b2 products).symm

/-! ### Concrete fixtures used by counterexamples and witnesses.
At `yearly` granularity the root function is only ever applied with
`n = 1`, where the exact Decimal semantics is the identity, so
`proot0 x n = x` is the true power function on every reachable call. -/

def proot0 : ℚ → ℕ → ℚ := fun x _ => x

def cash_only : ProductSimConfig := { name := "cash", kind := .cash }

/-- Yearly run, no income, living costs 100, empty cash: cash goes to
-100 before the allocation phase ever runs. -/
def cfg_deficit : SimulationConfig :=
  { years := 1, period := .yearly, inflation_annual := 0,
    income := { gross_annual_start := 0, annual_growth := 0 },
    budget := { annual_living_costs := 100, emergency_fund_target := 0 },
    tax := { brackets := [] },
    per_cap := {} }

def cash_2000 : ProductSimConfig := { name := "cash", kind := .cash, initial_value_eur := 2000 }

def per_600 : ProductSimConfig := { name := "per", kind := .per, contribution_per_period := 600 }

/-- Two yearly periods, flat income 1000, costs 1800, a retirement product
contributing 600 while cash lasts, 50% flat tax, no standard deduction. -/
def cfg_per2y : SimulationConfig :=
  { years := 2, period := .yearly, inflation_annual := 0,
    income := { gross_annual_start := 1000, annual_growth := 0 },
    budget := { annual_living_costs := 1800, emergency_fund_target := 0 },
    tax := { brackets := [{ up_to := none, rate := 1/2 }], standard_deduction_rate := 0 },
    per_cap := { annual_min := 600 } }

def run_per2y : Except String SimulationResult := run proot0 cfg_per2y [cash_2000, per_600]

def row_per2y_0 : SimulationRow := (rowsOf run_per2y).headI

/-! ### C10: year-to-date retirement contributions are reset before the
year-final row snapshot -/

theorem sim_step_new_row_per_contrib (proot : ℚ → ℕ → ℚ) (cfg : SimulationConfig)
    (products : List ProductSimConfig) (cash_name : String) (n : ℕ)
    (s : SimState) (i : ℕ) (row : SimulationRow)
    (h : row ∈ (sim_step proot cfg products cash_name n s i).rows) :
    row ∈ s.rows ∨
      (row.step_in_year = i % n ∧ (i % n = n - 1 → row.per_contrib_year_to_date = 0)) := by
  simp only [sim_step] at h
  rcases List.mem_append.mp h with h | h
  · exact Or.inl h
  · right
    rcases List.mem_singleton.mp h with rfl
    refine ⟨rfl, fun hy => ?_⟩
    simp only [hy, reduceIte]

theorem init_product_rows (s : SimState) (p : ProductSimConfig) :
    (init_product s p).rows = s.rows := by
  unfold init_product
  repeat' split
  all_goals rfl

theorem init_state_rows (cfg : SimulationConfig) (products : List ProductSimConfig) :
    (init_state cfg products).rows = [] := by
  unfold init_state
  refine foldl_invariant init_product (fun s => s.rows = []) ?_ products _ rfl
  intro s p hs
  rw [init_product_rows, hs]

/-- C10.  On every emitted row of a completed run whose `step_in_year` is
the year's final period, `per_contrib_year_to_date` is exactly zero: the
year-to-date retirement counter is reset before the row snapshot. -/
theorem year_final_row_per_contrib_zero (proot : ℚ → ℕ → ℚ) (cfg : SimulationConfig)
    (products : List ProductSimConfig) (row : SimulationRow)
    (hmem : row ∈ rowsOf (run proot cfg products))
    (hstep : row.step_in_year = steps_per_year cfg.period - 1) :
    row.per_contrib_year_to_date = 0 := by
  unfold run at hmem
  rcases hfil : (products.filter (fun p => p.kind == ProductKind.cash)).map (fun p => p.name)
    with _ | ⟨cn, _ | ⟨b, t⟩⟩
  · rw [hfil] at hmem
    simp [rowsOf] at hmem
  · rw [hfil] at hmem
    simp only [rowsOf] at hmem
    have hinv :
        ∀ r ∈ (List.foldl (sim_step proot cfg products cn (steps_per_year cfg.period))
            (init_state cfg products)
            (List.range (cfg.years * steps_per_year cfg.period))).rows,
          r.step_in_year = steps_per_year cfg.period - 1 → r.per_contrib_year_to_date = 0 := by
      refine foldl_invariant (sim_step proot cfg products cn (steps_per_year cfg.period))
        (fun st => ∀ r ∈ st.rows,
          r.step_in_year = steps_per_year cfg.period - 1 → r.per_contrib_year_to_date = 0)
        ?_ _ _ ?_
      · intro s i hs r hr hy
        rcases sim_step_new_row_per_contrib proot cfg products cn _ s i r hr with h | ⟨h1, h2⟩
        · exact hs r h hy
        · exact h2 (h1 ▸ hy)
      · intro r hr
        rw [init_state_rows] at hr
        exact absurd hr (List.not_mem_nil r)
    exact hinv row hmem hstep
  · rw [hfil] at hmem
    simp [rowsOf] at hmem

set_option maxRecDepth 400000 in
/-- Witness for C10: in the two-year retirement scenario the first row is
year-final (yearly granularity), 600 was contributed to the retirement
product that year, yet the snapshot shows a zero year-to-date counter. -/
theorem year_final_row_per_contrib_zero_witness :
    row_per2y_0 ∈ rowsOf (run proot0 cfg_per2y [cash_2000, per_600])
    ∧ row_per2y_0.step_in_year = steps_per_year cfg_per2y.period - 1
    ∧ row_per2y_0.contributions_by_product.getD "per" 0 = 600
    ∧ row_per2y_0.per_contrib_year_to_date = 0 :=
  ⟨by with_unfolding_all decide, by decide, by with_unfolding_all rfl,
    year_final_row_per_contrib_zero proot0 cfg_per2y [cash_2000, per_600] row_per2y_0
      (by with_unfolding_all decide) (by decide)⟩

/-- Witness for C1: a list with exactly one `cash`-kind product runs to
completion. -/
theorem run_single_cash_enforcement_witness :
    ([cash_only].filter (fun p => p.kind == ProductKind.cash)).length = 1
    ∧ ∃ res, run proot0 cfg_deficit [cash_only] = .ok res :=
  ⟨by decide, (run_single_cash_enforcement proot0 cfg_deficit [cash_only]).2 (by decide)⟩

/-! ### C2: cash evolution across the allocation pass -/

/-- One allocation iteration can only decrease the cash balance, and it
never drives a non-negative balance negative. -/
theorem alloc_product_cash (cash_name : String) (n_per_year year_idx : ℕ)
    (scpi_part_price : Dict ℚ) (desired : Dict ℚ) (scpi_plan : Dict ℤ)
    (acc : AllocAcc) (p : ProductSimConfig) (hp : p.name ≠ cash_name) :
    (alloc_product cash_name n_per_year year_idx scpi_part_price desired scpi_plan acc p).value.getD cash_name 0
        ≤ acc.value.getD cash_name 0
    ∧ (0 ≤ acc.value.getD cash_name 0 →
        0 ≤ (alloc_product cash_name n_per_year year_idx scpi_part_price desired scpi_plan acc p).value.getD cash_name 0) := by
  simp only [alloc_product]
  split
  · exact ⟨le_refl _, fun h => h⟩
  split
  all_goals split_ifs with h1 h2 h3 h4
  all_goals try exact ⟨le_refl _, fun h => h⟩
  all_goals rw [AList.getD_set_ne _ _ _ hp, AList.getD_set_self]
  -- SCPI purchase with positive price and a positive share count
  · push_neg at h3
    set price := scpi_part_price.getD p.name 0 with hpr
    set cash := acc.value.getD cash_name 0 with hcash
    set pt : ℤ := min (scpi_plan.getD p.name 0) (min ⌊acc.remaining / price⌋ ⌊cash / price⌋) with hpt
    have hle : pt ≤ ⌊cash / price⌋ := le_trans (min_le_right _ _) (min_le_right _ _)
    have hspent : (pt : ℚ) * price ≤ cash := by
      calc (pt : ℚ) * price ≤ (⌊cash / price⌋ : ℚ) * price := by
            apply mul_le_mul_of_nonneg_right _ (le_of_lt h2)
            exact_mod_cast hle
        _ ≤ (cash / price) * price :=
            mul_le_mul_of_nonneg_right (Int.floor_le _) (le_of_lt h2)
        _ = cash := div_mul_cancel₀ cash (ne_of_gt h2)
    have hpos : (0:ℚ) < (pt : ℚ) * price := by
      apply mul_pos _ h2
      exact_mod_cast h3
    exact ⟨by linarith, fun _ => by linarith⟩
  -- SCPI purchase with non-positive price: no purchase is possible
  · exfalso
    simp only [min_self] at h4
    exact h4 (min_le_right _ 0)
  -- cash below the requested allocation: allocate max(0, cash)
  · refine ⟨?_, fun hc => ?_⟩
    · have := le_max_left (0:ℚ) (acc.value.getD cash_name 0)
      linarith
    · rw [max_eq_right hc]
      linarith
  · refine ⟨?_, fun hc => ?_⟩
    · have := le_max_left (0:ℚ) (acc.value.getD cash_name 0)
      linarith
    · rw [max_eq_right hc]
      linarith
  · refine ⟨?_, fun hc => ?_⟩
    · have := le_max_left (0:ℚ) (acc.value.getD cash_name 0)
      linarith
    · rw [max_eq_right hc]
      linarith
  · refine ⟨?_, fun hc => ?_⟩
    · have := le_max_left (0:ℚ) (acc.value.getD cash_name 0)
      linarith
    · rw [max_eq_right hc]
      linarith
  -- allocation bounded by the remaining budget and the available cash
  · rename_i hmin hk1 hk2
    push_neg at h2 hmin
    exact ⟨by linarith, fun _ => by linarith⟩
  · rename_i hmin hk1 hk2
    push_neg at h2 hmin
    exact ⟨by linarith, fun _ => by linarith⟩
  · rename_i hmin hk1 hk2
    push_neg at h2 hmin
    exact ⟨by linarith, fun _ => by linarith⟩
  · rename_i hmin hk1 hk2
    push_neg at h2 hmin
    exact ⟨by linarith, fun _ => by linarith⟩

theorem alloc_fold_cash (cash_name : String) (n_per_year year_idx : ℕ)
    (scpi_part_price : Dict ℚ) (desired : Dict ℚ) (scpi_plan : Dict ℤ) :
    ∀ (l : List ProductSimConfig), (∀ p ∈ l, p.name ≠ cash_name) → ∀ (acc : AllocAcc),
    (l.foldl (alloc_product cash_name n_per_year year_idx scpi_part_price desired scpi_plan) acc).value.getD cash_name 0
        ≤ acc.value.getD cash_name 0
    ∧ (0 ≤ acc.value.getD cash_name 0 →
        0 ≤ (l.foldl (alloc_product cash_name n_per_year year_idx scpi_part_price desired scpi_plan) acc).value.getD cash_name 0) := by
  intro l
  induction l with
  | nil => exact fun _ acc => ⟨le_refl _, fun h => h⟩
  | cons q t ih =>
    intro hmem acc
    have hq : q.name ≠ cash_name := hmem q (List.mem_cons_self q t)
    have h1 := alloc_product_cash cash_name n_per_year year_idx scpi_part_price desired scpi_plan acc q hq
    have h2 := ih (fun p hp => hmem p (List.mem_cons_of_mem q hp))
      (alloc_product cash_name n_per_year year_idx scpi_part_price desired scpi_plan acc q)
    simp only [List.foldl_cons]
    exact ⟨le_trans h2.1 h1.1, fun h => h2.2 (h1.2 h)⟩

/-- The whole allocation pass can only decrease cash and never drives a
non-negative balance negative. -/
theorem alloc_pass_cash (cash_name : String) (n_per_year year_idx : ℕ)
    (scpi_part_price : Dict ℚ) (desired : Dict ℚ) (scpi_plan : Dict ℤ)
    (products : List ProductSimConfig) (acc : AllocAcc) :
    (alloc_pass cash_name n_per_year year_idx scpi_part_price desired scpi_plan products acc).value.getD cash_name 0
        ≤ acc.value.getD cash_name 0
    ∧ (0 ≤ acc.value.getD cash_name 0 →
        0 ≤ (alloc_pass cash_name n_per_year year_idx scpi_part_price desired scpi_plan products acc).value.getD cash_name 0) :=
  alloc_fold_cash cash_name n_per_year year_idx scpi_part_price desired scpi_plan
    (alloc_order cash_name products) (fun _ hp => (mem_alloc_order hp).2) acc

theorem sim_step_new_row_cash (proot : ℚ → ℕ → ℚ) (cfg : SimulationConfig)
    (products : List ProductSimConfig) (cash_name : String) (n : ℕ)
    (s : SimState) (i : ℕ) (row : SimulationRow)
    (h : row ∈ (sim_step proot cfg products cash_name n s i).rows) :
    row ∈ s.rows ∨
      (row.cash_after_invest ≤ row.cash_before_invest
        ∧ (0 ≤ row.cash_before_invest → 0 ≤ row.cash_after_invest)) := by
  simp only [sim_step] at h
  rcases List.mem_append.mp h with h | h
  · exact Or.inl h
  · right
    rcases List.mem_singleton.mp h with rfl
    exact alloc_pass_cash cash_name _ _ _ _ _ products _

/-- C2 (amended).  On every emitted row, cash after the allocation pass
never exceeds cash before it; and whenever the emergency-fund floor is
enforced and cash before allocation is non-negative, cash after
allocation stays non-negative. -/
theorem cash_invariant_rows (proot : ℚ → ℕ → ℚ) (cfg : SimulationConfig)
    (products : List ProductSimConfig) (row : SimulationRow)
    (hmem : row ∈ rowsOf (run proot cfg products)) :
    row.cash_after_invest ≤ row.cash_before_invest
    ∧ (cfg.budget.enforce_emergency_fund_first = true →
        0 ≤ row.cash_before_invest → 0 ≤ row.cash_after_invest) := by
  unfold run at hmem
  rcases hfil : (products.filter (fun p => p.kind == ProductKind.cash)).map (fun p => p.name)
    with _ | ⟨cn, _ | ⟨b, t⟩⟩
  · rw [hfil] at hmem
    simp [rowsOf] at hmem
  · rw [hfil] at hmem
    simp only [rowsOf] at hmem
    have hinv :
        ∀ r ∈ (List.foldl (sim_step proot cfg products cn (steps_per_year cfg.period))
            (init_state cfg products)
            (List.range (cfg.years * steps_per_year cfg.period))).rows,
          r.cash_after_invest ≤ r.cash_before_invest
            ∧ (0 ≤ r.cash_before_invest → 0 ≤ r.cash_after_invest) := by
      refine foldl_invariant (sim_step proot cfg products cn (steps_per_year cfg.period))
        (fun st => ∀ r ∈ st.rows,
          r.cash_after_invest ≤ r.cash_before_invest
            ∧ (0 ≤ r.cash_before_invest → 0 ≤ r.cash_after_invest))
        ?_ _ _ ?_
      · intro s i hs r hr
        rcases sim_step_new_row_cash proot cfg products cn _ s i r hr with h | h
        · exact hs r h
        · exact h
      · intro r hr
        rw [init_state_rows] at hr
        exact absurd hr (List.not_mem_nil r)
    exact ⟨(hinv row hmem).1, fun _ => (hinv row hmem).2⟩
  · rw [hfil] at hmem
    simp [rowsOf] at hmem

set_option maxRecDepth 400000 in
/-- Counterexample to C2 as stated: with the enforcement flag on and no
non-cash product (so every desired contribution is vacuously
non-negative), living costs alone push cash to -100, and the emitted row
has `cash_after_invest < 0`. -/
theorem cash_after_nonneg_counterexample :
    cfg_deficit.budget.enforce_emergency_fund_first = true
    ∧ (run proot0 cfg_deficit [cash_only]).isOk = true
    ∧ ¬ (∀ row ∈ rowsOf (run proot0 cfg_deficit [cash_only]), 0 ≤ row.cash_after_invest) :=
  ⟨rfl, by decide, by with_unfolding_all decide⟩

set_option maxRecDepth 400000 in
/-- Witness for C2: a concrete row with non-negative cash before the
allocation pass, to which the theorem applies. -/
theorem cash_invariant_rows_witness :
    row_per2y_0 ∈ rowsOf (run proot0 cfg_per2y [cash_2000, per_600])
    ∧ 0 ≤ row_per2y_0.cash_before_invest
    ∧ row_per2y_0.cash_after_invest ≤ row_per2y_0.cash_before_invest
    ∧ 0 ≤ row_per2y_0.cash_after_invest :=
  ⟨by with_unfolding_all decide, by with_unfolding_all decide,
    (cash_invariant_rows proot0 cfg_per2y [cash_2000, per_600] row_per2y_0
      (by with_unfolding_all decide)).1,
    (cash_invariant_rows proot0 cfg_per2y [cash_2000, per_600] row_per2y_0
      (by with_unfolding_all decide)).2 rfl (by with_unfolding_all decide)⟩

/-! ### C8: year-end tax under zero income growth -/

theorem compute_per_cap_nonneg (income_prev : ℚ) (per_cap : PERCapConfig) :
    0 ≤ compute_per_cap_from_income_prev income_prev per_cap := by
  unfold compute_per_cap_from_income_prev
  exact le_max_right _ 0

theorem foldl_proj_fix {α β γ : Type} (g : α → β → α) (proj : α → γ) (l : List β)
    (h : ∀ a b, b ∈ l → proj (g a b) = proj a) : ∀ a, proj (l.foldl g a) = proj a := by
  induction l with
  | nil => intro a; rfl
  | cons q t ih =>
    intro a
    rw [List.foldl_cons,
      ih (fun a b hb => h a b (List.mem_cons_of_mem q hb)) (g a q),
      h a q (List.mem_cons_self q t)]

theorem foldl_fix {α β : Type} (g : α → β → α) (l : List β)
    (h : ∀ a b, b ∈ l → g a b = a) : ∀ a, l.foldl g a = a := by
  induction l with
  | nil => intro a; rfl
  | cons q t ih =>
    intro a
    rw [List.foldl_cons, h a q (List.mem_cons_self q t)]
    exact ih (fun a b hb => h a b (List.mem_cons_of_mem q hb)) a

/-- With no FCPI-kind product the aggregate FCPI reduction is zero. -/
theorem fcpi_reduction_eq_zero (products : List ProductSimConfig) (d : Dict ℚ)
    (h : ∀ p ∈ products, p.kind ≠ ProductKind.fcpi) :
    fcpi_reduction products d = 0 := by
  unfold fcpi_reduction
  refine foldl_fix _ products ?_ 0
  intro a p hp
  have hfc := h p hp
  cases hk : p.kind
  case fcpi => exact absurd hk hfc
  all_goals rfl

/-- Allocating to a non-retirement product leaves the year-to-date
retirement counter unchanged. -/
theorem alloc_product_per (cash_name : String) (n_per_year year_idx : ℕ)
    (scpi_part_price : Dict ℚ) (desired : Dict ℚ) (scpi_plan : Dict ℤ)
    (acc : AllocAcc) (p : ProductSimConfig) (hk : p.kind ≠ ProductKind.per) :
    (alloc_product cash_name n_per_year year_idx scpi_part_price desired scpi_plan acc p).per_contrib_ytd
      = acc.per_contrib_ytd := by
  simp only [alloc_product, if_neg hk]
  split
  · rfl
  split
  · split_ifs <;> rfl
  · split_ifs <;> rfl

theorem alloc_pass_per (cash_name : String) (n_per_year year_idx : ℕ)
    (scpi_part_price : Dict ℚ) (desired : Dict ℚ) (scpi_plan : Dict ℤ)
    (products : List ProductSimConfig) (acc : AllocAcc)
    (hper : ∀ p ∈ products, p.kind ≠ ProductKind.per) :
    (alloc_pass cash_name n_per_year year_idx scpi_part_price desired scpi_plan products acc).per_contrib_ytd
      = acc.per_contrib_ytd := by
  unfold alloc_pass
  exact foldl_proj_fix _ (fun a => a.per_contrib_ytd) _
    (fun a p hp =>
      alloc_product_per cash_name n_per_year year_idx scpi_part_price desired scpi_plan a p
        (hper p (mem_alloc_order hp).1))
    acc

theorem init_product_per (s : SimState) (p : ProductSimConfig) :
    (init_product s p).per_contrib_ytd = s.per_contrib_ytd := by
  unfold init_product
  repeat' split
  all_goals rfl

theorem init_state_per (cfg : SimulationConfig) (products : List ProductSimConfig) :
    (init_state cfg products).per_contrib_ytd = 0 := by
  unfold init_state
  exact foldl_proj_fix init_product (fun s => s.per_contrib_ytd) products
    (fun s p _ => init_product_per s p) _

/-- The year-end tax liability of a flat-income, no-PER, no-FCPI run. -/
def flat_tax_due (cfg : SimulationConfig) : ℚ :=
  max 0 (compute_progressive_tax
    (max 0 (cfg.income.gross_annual_start * (1 - cfg.tax.standard_deduction_rate))) cfg.tax)

theorem sim_step_tax_flat (proot : ℚ → ℕ → ℚ) (cfg : SimulationConfig)
    (products : List ProductSimConfig) (cash_name : String) (n : ℕ)
    (s : SimState) (i : ℕ)
    (hg : cfg.income.annual_growth = 0)
    (hper : ∀ p ∈ products, p.kind ≠ ProductKind.per)
    (hfcpi : ∀ p ∈ products, p.kind ≠ ProductKind.fcpi)
    (hs : s.per_contrib_ytd = 0) :
    (sim_step proot cfg products cash_name n s i).per_contrib_ytd = 0
    ∧ ∀ row ∈ (sim_step proot cfg products cash_name n s i).rows,
        row ∈ s.rows ∨ ∀ t, row.tax_due_for_year = some t → t = flat_tax_due cfg := by
  constructor
  · simp only [sim_step]
    rw [alloc_pass_per _ _ _ _ _ _ _ _ hper, hs]
    simp
  · intro row hrow
    simp only [sim_step] at hrow
    rcases List.mem_append.mp hrow with h | h
    · exact Or.inl h
    · right
      rcases List.mem_singleton.mp h with rfl
      intro t ht
      simp only [] at ht
      rw [alloc_pass_per _ _ _ _ _ _ _ _ hper, hs,
        min_eq_left (compute_per_cap_nonneg _ _),
        fcpi_reduction_eq_zero products _ hfcpi, hg] at ht
      simp only [sub_zero, add_zero, one_pow, mul_one] at ht
      rw [← max_assoc, max_self] at ht
      split at ht
      · have hv := Option.some.inj ht
        simp only [flat_tax_due]
        exact hv.symm
      · exact absurd ht (by simp)

/-- C8 (amended).  With zero annual income growth and no PER-kind and no
FCPI-kind products, every year-end tax liability of a run is the same. -/
theorem tax_constant_zero_growth (proot : ℚ → ℕ → ℚ) (cfg : SimulationConfig)
    (products : List ProductSimConfig)
    (hg : cfg.income.annual_growth = 0)
    (hper : ∀ p ∈ products, p.kind ≠ ProductKind.per)
    (hfcpi : ∀ p ∈ products, p.kind ≠ ProductKind.fcpi)
    (r1 r2 : SimulationRow) (t1 t2 : ℚ)
    (h1 : r1 ∈ rowsOf (run proot cfg products))
    (h2 : r2 ∈ rowsOf (run proot cfg products))
    (ht1 : r1.tax_due_for_year = some t1)
    (ht2 : r2.tax_due_for_year = some t2) :
    t1 = t2 := by
  unfold run at h1 h2
  rcases hfil : (products.filter (fun p => p.kind == ProductKind.cash)).map (fun p => p.name)
    with _ | ⟨cn, _ | ⟨b, tl⟩⟩
  · rw [hfil] at h1
    simp [rowsOf] at h1
  · rw [hfil] at h1 h2
    simp only [rowsOf] at h1 h2
    have hinv :
        (List.foldl (sim_step proot cfg products cn (steps_per_year cfg.period))
            (init_state cfg products)
            (List.range (cfg.years * steps_per_year cfg.period))).per_contrib_ytd = 0
        ∧ ∀ r ∈ (List.foldl (sim_step proot cfg products cn (steps_per_year cfg.period))
            (init_state cfg products)
            (List.range (cfg.years * steps_per_year cfg.period))).rows,
          ∀ t, r.tax_due_for_year = some t → t = flat_tax_due cfg := by
      refine foldl_invariant (sim_step proot cfg products cn (steps_per_year cfg.period))
        (fun st => st.per_contrib_ytd = 0
          ∧ ∀ r ∈ st.rows, ∀ t, r.tax_due_for_year = some t → t = flat_tax_due cfg)
        ?_ _ _ ?_
      · intro st i hst
        have hstep := sim_step_tax_flat proot cfg products cn (steps_per_year cfg.period)
          st i hg hper hfcpi hst.1
        refine ⟨hstep.1, fun r hr => ?_⟩
        rcases hstep.2 r hr with h | h
        · exact hst.2 r h
        · exact h
      · refine ⟨init_state_per cfg products, fun r hr => ?_⟩
        rw [init_state_rows] at hr
        exact absurd hr (List.not_mem_nil r)
    have e1 := hinv.2 r1 h1 t1 ht1
    have e2 := hinv.2 r2 h2 t2 ht2
    rw [e1, e2]
  · rw [hfil] at h1
    simp [rowsOf] at h1

set_option maxRecDepth 400000 in
/-- Counterexample to C8 as stated: constant income (zero growth) and an
unchanged bracket list, yet the two year-end liabilities differ (200 in
year 1, 500 in year 2), because the retirement contribution could be
funded from cash in year 1 only, changing the deduction. -/
theorem tax_constant_counterexample :
    cfg_per2y.income.annual_growth = 0
    ∧ (rowsOf run_per2y).map (fun r => r.tax_due_for_year) = [some 200, some 500]
    ∧ (200 : ℚ) ≠ 500 :=
  ⟨rfl, by with_unfolding_all decide, by norm_num⟩

def run_flat2y : Except String SimulationResult := run proot0 cfg_per2y [cash_2000]

def row_flat_0 : SimulationRow := (rowsOf run_flat2y).headI

def row_flat_1 : SimulationRow := (rowsOf run_flat2y).tail.headI

set_option maxRecDepth 400000 in
/-- Witness for C8 (amended): the same configuration without the
retirement product yields the same year-end liability in both years. -/
theorem tax_constant_zero_growth_witness :
    row_flat_0.tax_due_for_year = some 500
    ∧ row_flat_1.tax_due_for_year = some 500
    ∧ (500 : ℚ) = 500 :=
  ⟨by with_unfolding_all decide, by with_unfolding_all decide,
    tax_constant_zero_growth proot0 cfg_per2y [cash_2000] rfl (by decide) (by decide)
      row_flat_0 row_flat_1 500 500 (by with_unfolding_all decide)
      (by with_unfolding_all decide) (by with_unfolding_all decide)
      (by with_unfolding_all decide)⟩

/-! ### C4: the retirement-cap formula -/

/-- `min (ceiling or +∞) x`. -/
def opt_min : Option ℚ → ℚ → ℚ
| none, x => x
| some c, x => min c x

def per_cap_floor_above_ceiling : PERCapConfig :=
  { rate_of_income_prev_year := 1, annual_min := 10, annual_max := some 5 }

/-- Counterexample to C4 as stated: with floor 10, ceiling 5 and prior
income 0, the code yields `min(max(0, 10), 5) = 5`, not the claimed
`max(10, min(5, 0))` floored at zero, which is 10. -/
theorem per_cap_formula_counterexample :
    compute_per_cap_from_income_prev 0 per_cap_floor_above_ceiling = 5
    ∧ max 0 (max per_cap_floor_above_ceiling.annual_min
        (opt_min per_cap_floor_above_ceiling.annual_max
          (0 * per_cap_floor_above_ceiling.rate_of_income_prev_year))) = 10
    ∧ (5 : ℚ) ≠ 10 :=
  ⟨by with_unfolding_all decide, by with_unfolding_all decide, by norm_num⟩

/-- C4 (amended).  The ceiling is applied after the floor:
`compute_per_cap_from_income_prev p cfg
  = max(0, min(ceiling or +∞, max(floor, p × rate)))`. -/
theorem per_cap_formula (p : ℚ) (cfg : PERCapConfig) (_hp : 0 ≤ p) :
    compute_per_cap_from_income_prev p cfg
      = max 0 (opt_min cfg.annual_max
          (max cfg.annual_min (p * cfg.rate_of_income_prev_year))) := by
  rcases hm : cfg.annual_max with _ | m
  · simp only [compute_per_cap_from_income_prev, opt_min, hm]
    rw [max_comm (p * cfg.rate_of_income_prev_year) cfg.annual_min, max_comm _ (0:ℚ)]
  · simp only [compute_per_cap_from_income_prev, opt_min, hm]
    rw [max_comm (p * cfg.rate_of_income_prev_year) cfg.annual_min,
      min_comm _ m, max_comm _ (0:ℚ)]

def per_cap_defaults : PERCapConfig := {}

/-- Witness for C4: the amended formula at prior income 100 with the
default cap configuration. -/
theorem per_cap_formula_witness :
    (0:ℚ) ≤ 100
    ∧ compute_per_cap_from_income_prev 100 per_cap_defaults
      = max 0 (opt_min per_cap_defaults.annual_max
          (max per_cap_defaults.annual_min (100 * per_cap_defaults.rate_of_income_prev_year))) :=
  ⟨by norm_num, per_cap_formula 100 per_cap_defaults (by norm_num)⟩

/-! ### C5: progressive tax, band by band -/

/-- Modelled from the spec (wording of C5): band-by-band marginal tax on
the per-share amount `tpp`; a bounded bracket taxes the slice between the
previous bound and its own, the unbounded last bracket absorbs the
remainder. -/
def spec_tax_bands (tpp : ℚ) : ℚ → List TaxBracket → ℚ
| _, [] => 0
| prev, b :: rest =>
  match b.up_to with
  | none => b.rate * max 0 (tpp - prev)
  | some u => b.rate * (min tpp u - min tpp prev) + spec_tax_bands tpp u rest

/-- Modelled from the spec (wording of C5): divide the taxable amount by
the household split factor, tax band-by-band, multiply the total back by
the same factor; non-positive taxable amount yields zero. -/
def spec_progressive_tax (taxable : ℚ) (tax_cfg : TaxConfig) : ℚ :=
  if taxable ≤ 0 then 0
  else spec_tax_bands (taxable / tax_cfg.household_parts) 0 tax_cfg.brackets
    * tax_cfg.household_parts

/-- Well-formed bracket list: strictly ascending upper bounds starting
above `prev`, exactly one unbounded bracket, in last position. -/
def brackets_wf : ℚ → List TaxBracket → Prop
| _, [] => False
| prev, b :: rest =>
  match b.up_to with
  | none => rest = []
  | some u => prev < u ∧ brackets_wf u rest

def half_split_tax : TaxConfig :=
  { brackets := [{ up_to := some 100, rate := 0 }, { up_to := none, rate := 1/2 }],
    household_parts := 1/2 }

/-- Counterexample to C5 as stated: with a household split factor of 1/2
(below one) the code clamps the divisor to 1 and finds the whole 100 in
the zero-rate band (tax 0), while the claimed computation divides by 1/2,
taxes 100 of the per-share 200 at 50% and returns 25. -/
theorem progressive_tax_counterexample :
    compute_progressive_tax 100 half_split_tax = 0
    ∧ spec_progressive_tax 100 half_split_tax = 25
    ∧ compute_progressive_tax 100 half_split_tax ≠ spec_progressive_tax 100 half_split_tax :=
  ⟨by with_unfolding_all decide, by with_unfolding_all decide, by with_unfolding_all decide⟩

theorem spec_tax_bands_above (tpp : ℚ) :
    ∀ (l : List TaxBracket) (prev : ℚ), brackets_wf prev l → tpp ≤ prev →
      spec_tax_bands tpp prev l = 0 := by
  intro l
  induction l with
  | nil => intro prev _ _; rfl
  | cons b rest ih =>
    intro prev hwf hle
    rcases hu : b.up_to with _ | u
    · simp only [spec_tax_bands, hu]
      rw [max_eq_left (by linarith), mul_zero]
    · simp only [brackets_wf, hu] at hwf
      simp only [spec_tax_bands, hu]
      have h1 : min tpp u = tpp := min_eq_left (by linarith [hwf.1])
      have h2 : min tpp prev = tpp := min_eq_left hle
      rw [h1, h2, sub_self, mul_zero, zero_add]
      exact ih u hwf.2 (by linarith [hwf.1])

theorem tax_bands_eq_spec (tpp : ℚ) :
    ∀ (l : List TaxBracket) (prev : ℚ), brackets_wf prev l → prev < tpp →
      tax_bands tpp prev l = spec_tax_bands tpp prev l := by
  intro l
  induction l with
  | nil => intro prev hwf _; exact absurd hwf id
  | cons b rest ih =>
    intro prev hwf hlt
    rcases hu : b.up_to with _ | u
    · simp only [tax_bands, spec_tax_bands, hu]
      rw [max_eq_right (by linarith), mul_comm]
    · simp only [brackets_wf, hu] at hwf
      simp only [tax_bands, spec_tax_bands, hu]
      have hprev : min tpp prev = prev := min_eq_right (le_of_lt hlt)
      have hband : 0 < min tpp u - prev := by
        have : prev < min tpp u := lt_min hlt hwf.1
        linarith
      rw [if_pos hband, hprev]
      by_cases htu : tpp ≤ u
      · rw [if_pos htu, spec_tax_bands_above tpp rest u hwf.2 htu, mul_comm]
      · push_neg at htu
        rw [if_neg (not_le.mpr htu), ih u hwf.2 htu, mul_comm]

/-- C5 (amended).  For brackets in ascending order whose last bracket is
unbounded, `compute_progressive_tax` returns zero on a non-positive
taxable amount, and otherwise equals the band-by-band computation on
`taxable / max(household_parts, 1)`, floored at zero and multiplied back
by the same clamped factor: the divisor is the split factor clamped to at
least one, and the band total is clamped at zero, unlike the claim's
unclamped split factor. -/
theorem progressive_tax_spec (taxable : ℚ) (cfg : TaxConfig)
    (hwf : brackets_wf 0 cfg.brackets) :
    compute_progressive_tax taxable cfg =
      if taxable ≤ 0 then 0
      else max 0 (spec_tax_bands (taxable / max cfg.household_parts 1) 0 cfg.brackets)
        * max cfg.household_parts 1 := by
  simp only [compute_progressive_tax]
  by_cases ht : taxable ≤ 0
  · rw [if_pos ht, if_pos ht]
  · rw [if_neg ht, if_neg ht]
    push_neg at ht
    have hparts : (0:ℚ) < max cfg.household_parts 1 := lt_of_lt_of_le one_pos (le_max_right _ _)
    have htpp : 0 < taxable / max cfg.household_parts 1 := div_pos ht hparts
    rw [tax_bands_eq_spec _ cfg.brackets 0 hwf htpp, max_comm _ (0:ℚ)]

def two_bracket_tax : TaxConfig :=
  { brackets := [{ up_to := some 100, rate := 1/10 }, { up_to := none, rate := 1/2 }] }

/-- Witness for C5: a two-bracket configuration satisfying the ordering
hypothesis, evaluated at taxable amount 150. -/
theorem progressive_tax_spec_witness :
    brackets_wf 0 two_bracket_tax.brackets
    ∧ compute_progressive_tax 150 two_bracket_tax =
      if (150:ℚ) ≤ 0 then 0
      else max 0 (spec_tax_bands ((150:ℚ) / max two_bracket_tax.household_parts 1) 0 two_bracket_tax.brackets)
        * max two_bracket_tax.household_parts 1 :=
  ⟨by norm_num [brackets_wf, two_bracket_tax], progressive_tax_spec 150 two_bracket_tax
    (by norm_num [brackets_wf, two_bracket_tax])⟩

/-! ### C6: the dividend-due predicate -/

/-- C6.  Within a year, `should_pay_dividend` is true exactly at the
frequency-aligned steps: always when the payment frequency is at least as
fine as the period granularity, and otherwise exactly when `step + 1` is
a multiple of `stepsPerYear / paymentsPerYear`; in particular monthly
granularity with quarterly frequency pays at steps 2, 5, 8, 11 and
quarterly granularity with semiannual frequency pays at steps 1 and 3. -/
theorem should_pay_dividend_aligned (period : Period) (freq : DividendFrequency) :
    ∀ step_in_year : ℕ, step_in_year < steps_per_year period →
      ((should_pay_dividend period step_in_year freq = true ↔
          (steps_per_year period ≤ payments_per_year freq
            ∨ (step_in_year + 1) % (steps_per_year period / payments_per_year freq) = 0))
        ∧ (period = .monthly → freq = .quarterly →
            (should_pay_dividend period step_in_year freq = true ↔
              step_in_year = 2 ∨ step_in_year = 5 ∨ step_in_year = 8 ∨ step_in_year = 11))
        ∧ (period = .quarterly → freq = .semiannual →
            (should_pay_dividend period step_in_year freq = true ↔
              step_in_year = 1 ∨ step_in_year = 3))) := by
  cases period <;> cases freq <;>
    (intro s hs; simp only [steps_per_year] at hs; interval_cases s <;> decide)

/-- Witness for C6: at monthly granularity with quarterly frequency,
step 5 is aligned and the dividend is due. -/
theorem should_pay_dividend_aligned_witness :
    5 < steps_per_year Period.monthly
    ∧ (should_pay_dividend Period.monthly 5 DividendFrequency.quarterly = true ↔
        (steps_per_year Period.monthly ≤ payments_per_year DividendFrequency.quarterly
          ∨ (5 + 1) % (steps_per_year Period.monthly / payments_per_year DividendFrequency.quarterly) = 0)) :=
  ⟨by decide,
    (should_pay_dividend_aligned Period.monthly DividendFrequency.quarterly 5 (by decide)).1⟩

/-! ### C7: integer distribution and SCPI purchase planning -/

theorem distribute_sum_aux (base rem : ℤ) (h0 : 0 ≤ rem) :
    ∀ (k : ℕ), ((List.range k).map (fun i : ℕ => base + if (i : ℤ) < rem then 1 else 0)).sum
      = k * base + min rem k := by
  intro k
  induction k with
  | zero =>
    simp only [List.range_zero, List.map_nil, List.sum_nil, Nat.cast_zero, zero_mul]
    omega
  | succ k ih =>
    rw [List.range_succ, List.map_append, List.sum_append, ih]
    simp only [List.map_cons, List.map_nil, List.sum_cons, List.sum_nil]
    have hexp : ((k:ℤ) + 1) * base = (k:ℤ) * base + base := by ring
    by_cases hk : (k:ℤ) < rem
    · rw [if_pos hk]
      push_cast
      rw [hexp]
      omega
    · rw [if_neg hk]
      push_cast
      rw [hexp]
      omega

/-- The even-split properties of `distribute_integer_over_periods`:
`n` non-negative entries summing to the total, any two entries within 1
of each other, larger entries first. -/
theorem distribute_props (total n : ℤ) (htot : 0 ≤ total) (hn : 1 ≤ n) :
    (distribute_integer_over_periods total n).length = n.toNat
    ∧ (distribute_integer_over_periods total n).sum = total
    ∧ (∀ x ∈ distribute_integer_over_periods total n, 0 ≤ x)
    ∧ (∀ (i j : ℕ) (hi : i < (distribute_integer_over_periods total n).length)
        (hj : j < (distribute_integer_over_periods total n).length), i ≤ j →
        (distribute_integer_over_periods total n).get ⟨j, hj⟩
            ≤ (distribute_integer_over_periods total n).get ⟨i, hi⟩
          ∧ (distribute_integer_over_periods total n).get ⟨i, hi⟩
            ≤ (distribute_integer_over_periods total n).get ⟨j, hj⟩ + 1) := by
  unfold distribute_integer_over_periods
  rw [if_neg (by omega)]
  by_cases h0 : total ≤ 0
  · rw [if_pos h0]
    have htz : total = 0 := le_antisymm h0 htot
    refine ⟨List.length_replicate _ _, ?_, ?_, ?_⟩
    · simp [htz]
    · intro x hx
      rw [List.eq_of_mem_replicate hx]
    · intro i j hi hj _
      simp only [List.get_eq_getElem, List.getElem_replicate]
      omega
  · rw [if_neg h0]
    have hfd : 0 ≤ Int.fdiv total n := Int.fdiv_nonneg (by omega) (by omega)
    have hfm : 0 ≤ Int.fmod total n := Int.fmod_nonneg (by omega) (by omega)
    have hlt : Int.fmod total n < n := Int.fmod_lt_of_pos total (by omega)
    have hid : n * Int.fdiv total n + Int.fmod total n = total := Int.fdiv_add_fmod total n
    refine ⟨?_, ?_, ?_, ?_⟩
    · rw [List.length_map, List.length_range]
    · rw [distribute_sum_aux _ _ hfm]
      rw [Int.toNat_of_nonneg (by omega)]
      omega
    · intro x hx
      rcases List.mem_map.mp hx with ⟨i, _, rfl⟩
      split <;> omega
    · intro i j hi hj hij
      simp only [List.get_eq_getElem, List.getElem_map, List.getElem_range]
      have hcast : (i:ℤ) ≤ (j:ℤ) := by exact_mod_cast hij
      constructor
      · split <;> split <;> omega
      · split <;> split <;> omega

theorem payments_done_lt (period : Period) (freq : DividendFrequency) :
    ∀ s : ℕ, s < steps_per_year period → should_pay_dividend period s freq = true →
      payments_done period freq s < payments_per_year freq := by
  cases period <;> cases freq <;>
    (intro s hs; simp only [steps_per_year] at hs; interval_cases s <;> decide)

/-- Each paying step's planned SCPI share count is the corresponding
entry of the even integer distribution of the annual share target over
the year's payment occurrences. -/
theorem scpi_plan_realizes_distribution (period : Period) (freq : DividendFrequency)
    (total : ℤ) (s : ℕ) (htot : 0 ≤ total) (hs : s < steps_per_year period)
    (hpay : should_pay_dividend period s freq = true) :
    scpi_parts_planned period freq total s
      = ((distribute_integer_over_periods total (payments_per_year freq)).get?
          (payments_done period freq s)).getD 0 := by
  have hj := payments_done_lt period freq s hs hpay
  have hn : (0:ℤ) < (payments_per_year freq : ℤ) := by cases freq <;> decide
  have hjn : payments_done period freq s < ((payments_per_year freq : ℤ)).toNat := by
    rw [Int.toNat_natCast]
    exact hj
  unfold scpi_parts_planned distribute_integer_over_periods
  rw [if_pos hpay, if_neg (not_le.mpr hn)]
  by_cases h0 : total ≤ 0
  · rw [if_pos h0]
    have htz : total = 0 := le_antisymm h0 htot
    subst htz
    rw [List.get?_eq_getElem?, List.getElem?_replicate, if_pos hjn]
    simp [Int.zero_fdiv, Int.zero_fmod]
  · rw [if_neg h0]
    rw [List.get?_eq_getElem?, List.getElem?_map, List.getElem?_range hjn]
    simp only [Option.map_some', Option.getD_some]
    by_cases hrem : (payments_done period freq s : ℤ) < Int.fmod total (payments_per_year freq)
    · rw [if_pos hrem, if_pos hrem]
    · rw [if_neg hrem, if_neg hrem, add_zero]

/-- C7.  `distribute_integer_over_periods` splits a non-negative total
over `n ≥ 1` periods into `n` non-negative integers summing to the
total, any two entries within one of each other and the larger entries
first; and for every share-fund product, each paying period's planned
share count is exactly the corresponding entry of this distribution of
the annual share target over the year's payment occurrences. -/
theorem distribute_even_split_and_plan :
    (∀ (total n : ℤ), 0 ≤ total → 1 ≤ n →
      (distribute_integer_over_periods total n).length = n.toNat
      ∧ (distribute_integer_over_periods total n).sum = total
      ∧ (∀ x ∈ distribute_integer_over_periods total n, 0 ≤ x)
      ∧ (∀ (i j : ℕ) (hi : i < (distribute_integer_over_periods total n).length)
          (hj : j < (distribute_integer_over_periods total n).length), i ≤ j →
          (distribute_integer_over_periods total n).get ⟨j, hj⟩
              ≤ (distribute_integer_over_periods total n).get ⟨i, hi⟩
            ∧ (distribute_integer_over_periods total n).get ⟨i, hi⟩
              ≤ (distribute_integer_over_periods total n).get ⟨j, hj⟩ + 1))
    ∧ (∀ (period : Period) (freq : DividendFrequency) (total : ℤ) (s : ℕ),
        0 ≤ total → s < steps_per_year period →
        should_pay_dividend period s freq = true →
        scpi_parts_planned period freq total s
          = ((distribute_integer_over_periods total (payments_per_year freq)).get?
              (payments_done period freq s)).getD 0) :=
  ⟨distribute_props, scpi_plan_realizes_distribution⟩

/-- Witness for C7: distributing 10 over 4 periods, and the third month
of a monthly year with quarterly payments receiving the first entry of
the distribution. -/
theorem distribute_even_split_and_plan_witness :
    ((0:ℤ) ≤ 10 ∧ (1:ℤ) ≤ 4
      ∧ (distribute_integer_over_periods 10 4).sum = 10
      ∧ distribute_integer_over_periods 10 4 = [3, 3, 2, 2])
    ∧ (should_pay_dividend Period.monthly 2 DividendFrequency.quarterly = true
      ∧ scpi_parts_planned Period.monthly DividendFrequency.quarterly 10 2
        = ((distribute_integer_over_periods 10 (payments_per_year DividendFrequency.quarterly)).get?
            (payments_done Period.monthly DividendFrequency.quarterly 2)).getD 0) :=
  ⟨⟨by norm_num, by norm_num,
      (distribute_even_split_and_plan.1 10 4 (by norm_num) (by norm_num)).2.1,
      by with_unfolding_all decide⟩,
    ⟨by decide,
      distribute_even_split_and_plan.2 Period.monthly DividendFrequency.quarterly 10 2
        (by norm_num) (by decide) (by decide)⟩⟩

/-! ### C3: FCPI lot opening and maturity -/

/-- Allocating to an FCPI product either leaves the accumulator
untouched (no contribution this period) or records a positive
contribution `a` and opens exactly one new lot with principal `a`
maturing at `(yearIndex + holdingYears + 1) * periodsPerYear - 1`. -/
theorem alloc_product_fcpi_lot (cash_name : String) (n_per_year year_idx : ℕ)
    (scpi_part_price : Dict ℚ) (desired : Dict ℚ) (scpi_plan : Dict ℤ)
    (acc : AllocAcc) (p : ProductSimConfig) (fc : FCPIConfig)
    (hk : p.kind = ProductKind.fcpi) (hfc : p.fcpi = some fc) :
    alloc_product cash_name n_per_year year_idx scpi_part_price desired scpi_plan acc p = acc
    ∨ ∃ a : ℚ, 0 < a
        ∧ (alloc_product cash_name n_per_year year_idx scpi_part_price desired scpi_plan acc p).contributions.getD p.name 0
            = acc.contributions.getD p.name 0 + a
        ∧ (alloc_product cash_name n_per_year year_idx scpi_part_price desired scpi_plan acc p).fcpi_lots.getD p.name []
            = acc.fcpi_lots.getD p.name []
              ++ [(((year_idx : ℤ) + fc.holding_years + 1) * (n_per_year : ℤ) - 1, a)] := by
  simp only [alloc_product, hk, hfc, reduceIte]
  split_ifs with h1 h2 h3 h4
  all_goals first
    | exact Or.inl rfl
    | (rename_i hcontra
       exact hcontra.elim)
    | (right
       rename_i halloc hcontra
       push_neg at halloc
       exact ⟨_, halloc, by rw [AList.getD_set_self], by rw [AList.getD_set_self]⟩)
    | (right
       rename_i hcontra
       push_neg at h4
       exact ⟨_, h4, by rw [AList.getD_set_self], by rw [AList.getD_set_self]⟩)

/-- With a single open lot `(m, pr)` in `principal` exit mode, positive
principal covered by the product's value: before the maturity step the
lot is kept and nothing is redeemed; from the maturity step on, the lot
leaves the list and exactly `pr` is credited to cash and recorded as a
redemption. -/
theorem mature_product_single_lot (cash_name : String) (i : ℕ)
    (acc : MatAcc) (p : ProductSimConfig) (fc : FCPIConfig)
    (hk : p.kind = ProductKind.fcpi) (hfc : p.fcpi = some fc)
    (hmode : fc.exit_mode = FCPIExitMode.principal)
    (m : ℤ) (pr : ℚ)
    (hlots : acc.fcpi_lots.getD p.name [] = [(m, pr)])
    (hp : p.name ≠ cash_name)
    (hpos : 0 < pr) (hval : pr ≤ acc.value.getD p.name 0) :
    ((i:ℤ) < m →
        (mature_product cash_name i acc p).fcpi_lots.getD p.name [] = [(m, pr)]
        ∧ (mature_product cash_name i acc p).redemptions.getD p.name 0
            = acc.redemptions.getD p.name 0
        ∧ (mature_product cash_name i acc p).value.getD cash_name 0
            = acc.value.getD cash_name 0)
    ∧ (m ≤ (i:ℤ) →
        (mature_product cash_name i acc p).fcpi_lots.getD p.name [] = []
        ∧ (mature_product cash_name i acc p).redemptions.getD p.name 0
            = acc.redemptions.getD p.name 0 + pr
        ∧ (mature_product cash_name i acc p).value.getD cash_name 0
            = acc.value.getD cash_name 0 + pr) := by
  have hred : min pr (acc.value.getD p.name 0) = pr := min_eq_left hval
  constructor
  · intro hlt
    simp only [mature_product, hk, hfc, hlots, List.isEmpty_cons, Bool.false_eq_true,
      if_false, mature_lots, if_neg (not_le.mpr hlt), List.nil_append,
      AList.getD_set_self, and_self, and_true, true_and]
  · intro hge
    simp only [mature_product, hk, hfc, hlots, List.isEmpty_cons, Bool.false_eq_true,
      if_false, mature_lots, if_pos hge, hmode, hred, if_pos hpos]
    refine ⟨AList.getD_set_self _ _ _ _, AList.getD_set_self _ _ _ _, ?_⟩
    rw [AList.getD_set_self]
    rw [AList.getD_set_ne _ _ _ hp]

def fcpi_defaults : FCPIConfig := {}

def fcpi_100 : ProductSimConfig :=
  { name := "fcpi", kind := .fcpi, contribution_per_period := 100, fcpi := some fcpi_defaults }

def cash_10000 : ProductSimConfig := { name := "cash", kind := .cash, initial_value_eur := 10000 }

/-- Nine yearly periods, enough cash for a 100 contribution to the FCPI
product every year; the default holding period is 8 years. -/
def cfg_9y : SimulationConfig :=
  { years := 9, period := .yearly, inflation_annual := 0,
    income := { gross_annual_start := 0, annual_growth := 0 },
    budget := { annual_living_costs := 0, emergency_fund_target := 0 },
    tax := { brackets := [] },
    per_cap := {} }

/-- C3.  FCPI lot scheduling: (1) a contribution of `a > 0` to an
FCPI-kind product in a period of year index `y` opens exactly one lot
with principal `a` maturing at step `(y + holdingYears + 1) * periodsPerYear - 1`;
(2) a single open lot is kept untouched before its maturity step and
redeemed into cash exactly from that step on; (3) concretely, with a
9-year yearly horizon and an 8-year holding period, the contribution of
year 1 is redeemed exactly in the final period of year 9 (period index 8)
and no earlier. -/
theorem fcpi_lot_schedule :
    (∀ (cash_name : String) (n_per_year year_idx : ℕ) (spp desired : Dict ℚ)
        (plan : Dict ℤ) (acc : AllocAcc) (p : ProductSimConfig) (fc : FCPIConfig),
        p.kind = ProductKind.fcpi → p.fcpi = some fc →
        alloc_product cash_name n_per_year year_idx spp desired plan acc p = acc
        ∨ ∃ a : ℚ, 0 < a
            ∧ (alloc_product cash_name n_per_year year_idx spp desired plan acc p).contributions.getD p.name 0
                = acc.contributions.getD p.name 0 + a
            ∧ (alloc_product cash_name n_per_year year_idx spp desired plan acc p).fcpi_lots.getD p.name []
                = acc.fcpi_lots.getD p.name []
                  ++ [(((year_idx : ℤ) + fc.holding_years + 1) * (n_per_year : ℤ) - 1, a)])
    ∧ (∀ (cash_name : String) (i : ℕ) (acc : MatAcc) (p : ProductSimConfig) (fc : FCPIConfig),
        p.kind = ProductKind.fcpi → p.fcpi = some fc →
        fc.exit_mode = FCPIExitMode.principal →
        ∀ (m : ℤ) (pr : ℚ), acc.fcpi_lots.getD p.name [] = [(m, pr)] →
        p.name ≠ cash_name → 0 < pr → pr ≤ acc.value.getD p.name 0 →
        ((i:ℤ) < m →
            (mature_product cash_name i acc p).fcpi_lots.getD p.name [] = [(m, pr)]
            ∧ (mature_product cash_name i acc p).redemptions.getD p.name 0
                = acc.redemptions.getD p.name 0
            ∧ (mature_product cash_name i acc p).value.getD cash_name 0
                = acc.value.getD cash_name 0)
        ∧ (m ≤ (i:ℤ) →
            (mature_product cash_name i acc p).fcpi_lots.getD p.name [] = []
            ∧ (mature_product cash_name i acc p).redemptions.getD p.name 0
                = acc.redemptions.getD p.name 0 + pr
            ∧ (mature_product cash_name i acc p).value.getD cash_name 0
                = acc.value.getD cash_name 0 + pr))
    ∧ ((rowsOf (run proot0 cfg_9y [cash_10000, fcpi_100])).map
          (fun r => r.redemptions_by_product.getD "fcpi" 0)
        = [0, 0, 0, 0, 0, 0, 0, 0, 100]
      ∧ (rowsOf (run proot0 cfg_9y [cash_10000, fcpi_100])).map
          (fun r => r.contributions_by_product.getD "fcpi" 0)
        = [100, 100, 100, 100, 100, 100, 100, 100, 100]) := by
  refine ⟨?_, ?_, ?_, ?_⟩
  · intro cash_name n_per_year year_idx spp desired plan acc p fc hk hfc
    exact alloc_product_fcpi_lot cash_name n_per_year year_idx spp desired plan acc p fc hk hfc
  · intro cash_name i acc p fc hk hfc hmode m pr hlots hp hpos hval
    exact mature_product_single_lot cash_name i acc p fc hk hfc hmode m pr hlots hp hpos hval
  · exact by with_unfolding_all decide
  · exact by with_unfolding_all decide

def alloc_acc_w : AllocAcc :=
  { value := [("cash", 1000), ("fcpi", 0)], invested := [("cash", 0), ("fcpi", 0)],
    scpi_parts := [], remaining := 1000, contributions := [("cash", 0), ("fcpi", 0)],
    per_contrib_ytd := 0, fcpi_contrib_ytd_by_product := [("fcpi", 0)],
    fcpi_lots := [("fcpi", [])] }

def mat_acc_w : MatAcc :=
  { value := [("cash", 0), ("fcpi", 500)], invested := [("cash", 0), ("fcpi", 500)],
    fcpi_lots := [("fcpi", [(8, 100)])], redemptions := [("cash", 0), ("fcpi", 0)] }

set_option maxRecDepth 400000 in
/-- Witness for C3: a concrete FCPI allocation (year index 0, yearly
granularity) and a concrete single-lot maturity at its due step. -/
theorem fcpi_lot_schedule_witness :
    (alloc_product "cash" 1 0 [] [("fcpi", 100)] [] alloc_acc_w fcpi_100 = alloc_acc_w
      ∨ ∃ a : ℚ, 0 < a
          ∧ (alloc_product "cash" 1 0 [] [("fcpi", 100)] [] alloc_acc_w fcpi_100).contributions.getD fcpi_100.name 0
              = alloc_acc_w.contributions.getD fcpi_100.name 0 + a
          ∧ (alloc_product "cash" 1 0 [] [("fcpi", 100)] [] alloc_acc_w fcpi_100).fcpi_lots.getD fcpi_100.name []
              = alloc_acc_w.fcpi_lots.getD fcpi_100.name []
                ++ [((((0:ℕ) : ℤ) + fcpi_defaults.holding_years + 1) * (((1:ℕ)) : ℤ) - 1, a)])
    ∧ ((mature_product "cash" 8 mat_acc_w fcpi_100).fcpi_lots.getD fcpi_100.name [] = []
      ∧ (mature_product "cash" 8 mat_acc_w fcpi_100).redemptions.getD fcpi_100.name 0
          = mat_acc_w.redemptions.getD fcpi_100.name 0 + 100
      ∧ (mature_product "cash" 8 mat_acc_w fcpi_100).value.getD "cash" 0
          = mat_acc_w.value.getD "cash" 0 + 100) :=
  ⟨fcpi_lot_schedule.1 "cash" 1 0 [] [("fcpi", 100)] [] alloc_acc_w fcpi_100 fcpi_defaults
      rfl rfl,
    (fcpi_lot_schedule.2.1 "cash" 8 mat_acc_w fcpi_100 fcpi_defaults rfl rfl rfl 8 100
        (by with_unfolding_all decide) (by decide)
        (by with_unfolding_all decide) (by with_unfolding_all decide)).2
      (by norm_num)⟩
